import Mathlib

/-!
Verification development for the jepl query parser (`src/parser.go`).

The repository's core is a recursive-descent parser for an InfluxQL-like
SELECT dialect.  The lexical scanner, the token-kind enumeration with its
precedence/operator classification, the generic AST walk and the statement
validation hook are external collaborators of the parser (they are not part
of the parser source); following the specification, the parser is embedded
here as a family of pure functions over a stream of already-scanned tokens,
and each external collaborator is modelled from the specification where its
behaviour matters.  Looping parser routines take an explicit fuel argument;
running out of fuel yields a distinguished error that no theorem relies on.
-/

namespace Jepl

/-- Source position: `{line, char}`, zero-indexed internally (from the data
model of the spec); diagnostics render it 1-indexed. -/
structure Pos where
  line : Nat
  char : Nat
deriving DecidableEq

/-- Token kinds referenced by the parser.  Modelled from the spec: the
token-kind enumeration itself lives in the out-of-scope token source; this is
the fixed set of named kinds the grammar consumes, plus the
comparison/logic/arithmetic operator kinds. -/
inductive TokKind where
  | ILLEGAL
  | EOF
  | WS
  | IDENT
  | BOUNDPARAM
  | NUMBER
  | INTEGER
  | STRING
  | BADESCAPE
  | TRUE
  | FALSE
  | REGEX
  | BADREGEX
  | ADD
  | SUB
  | MUL
  | DIV
  | MOD
  | AND
  | OR
  | EQ
  | NEQ
  | EQREGEX
  | NEQREGEX
  | LT
  | LTE
  | GT
  | GTE
  | LPAREN
  | RPAREN
  | COMMA
  | SEMICOLON
  | DOT
  | DOUBLECOLON
  | SELECT
  | FROM
  | WHERE
  | AS
deriving DecidableEq

/-- A scanned token: kind, literal text and source position, as produced by
the out-of-scope scanner (`scan() -> (kind, position, lexeme)`).  Keyword and
punctuation tokens carry an empty literal; `IDENT`/`STRING` literals carry
their unquoted text; `BOUNDPARAM` literals keep their leading dollar sign. -/
structure Tok where
  kind : TokKind
  lit : String := ""
  pos : Pos := ⟨0, 0⟩
deriving DecidableEq

/-- The token the scanner keeps returning at end of input. -/
def eofTok : Tok := { kind := .EOF }

/-- Token-kind display strings (`Token.String()` of the out-of-scope token
source).  Modelled from the spec: keywords display as themselves, operators
as their symbols. -/
def TokKind.str : TokKind → String
  | .ILLEGAL => "ILLEGAL"
  | .EOF => "EOF"
  | .WS => "WS"
  | .IDENT => "IDENT"
  | .BOUNDPARAM => "BOUNDPARAM"
  | .NUMBER => "NUMBER"
  | .INTEGER => "INTEGER"
  | .STRING => "STRING"
  | .BADESCAPE => "BADESCAPE"
  | .TRUE => "TRUE"
  | .FALSE => "FALSE"
  | .REGEX => "REGEX"
  | .BADREGEX => "BADREGEX"
  | .ADD => "+"
  | .SUB => "-"
  | .MUL => "*"
  | .DIV => "/"
  | .MOD => "%"
  | .AND => "AND"
  | .OR => "OR"
  | .EQ => "="
  | .NEQ => "!="
  | .EQREGEX => "=~"
  | .NEQREGEX => "!~"
  | .LT => "<"
  | .LTE => "<="
  | .GT => ">"
  | .GTE => ">="
  | .LPAREN => "("
  | .RPAREN => ")"
  | .COMMA => ","
  | .SEMICOLON => ";"
  | .DOT => "."
  | .DOUBLECOLON => "::"
  | .SELECT => "SELECT"
  | .FROM => "FROM"
  | .WHERE => "WHERE"
  | .AS => "AS"

/-- `tokstr(tok, lit)` of the out-of-scope token source, modelled from its
use in diagnostics: the literal when non-empty, the kind's display string
otherwise. -/
def tokstr (t : Tok) : String :=
  if t.lit ≠ "" then t.lit else t.kind.str

/-- `tok.isOperator()` of the out-of-scope token classification.  Modelled
from the spec: the comparison, boolean-logic and arithmetic kinds are the
operators. -/
def isOperator (k : TokKind) : Bool :=
  match k with
  | .ADD | .SUB | .MUL | .DIV | .MOD
  | .AND | .OR
  | .EQ | .NEQ | .EQREGEX | .NEQREGEX
  | .LT | .LTE | .GT | .GTE => true
  | _ => false

/-- `tok.Precedence()` of the out-of-scope token classification.  Modelled
from the spec: higher binds tighter; `*`, `/`, `%` bind tighter than `+`,
`-`, which bind tighter than the comparisons, which bind tighter than `AND`,
then `OR`; non-operators have precedence 0. -/
def precedence (k : TokKind) : Nat :=
  match k with
  | .OR => 1
  | .AND => 2
  | .EQ | .NEQ | .EQREGEX | .NEQREGEX | .LT | .LTE | .GT | .GTE => 3
  | .ADD | .SUB => 4
  | .MUL | .DIV | .MOD => 5
  | _ => 0

/-- `IsRegexOp` of the out-of-scope token classification: the regex-match
operators `=~` and `!~` (from the spec). -/
def IsRegexOp (k : TokKind) : Bool :=
  k = .EQREGEX ∨ k = .NEQREGEX

/-- Go's `ParseError` struct: a free-form message or a found/expected pair,
plus a position (`src/parser.go`, `ParseError`). -/
structure ParseError where
  message : String := ""
  found : String := ""
  expected : List String := []
  pos : Pos := ⟨0, 0⟩
deriving DecidableEq

/-- `newParseError` (`src/parser.go`). -/
def newParseError (found : String) (expected : List String) (pos : Pos) : ParseError :=
  { found := found, expected := expected, pos := pos }

/-- `ParseError.Error` (`src/parser.go`): renders the message, always
appending the 1-indexed position suffix. -/
def ParseError.Error (e : ParseError) : String :=
  if e.message ≠ "" then
    e.message ++ " at line " ++ toString (e.pos.line + 1) ++ ", char " ++ toString (e.pos.char + 1)
  else
    "found " ++ e.found ++ ", expected " ++ String.intercalate (", ") e.expected
      ++ " at line " ++ toString (e.pos.line + 1) ++ ", char " ++ toString (e.pos.char + 1)

/-- A Go `error` value returned by the parser: either a `*ParseError` or a
plain error built with `errors.New` / `fmt.Errorf` (as in the bound-parameter
and SELECT-field-validation branches of `src/parser.go`).  `fuel` is the
artefact of the embedding's explicit fuel; no theorem depends on it. -/
inductive GoError where
  | parseErr (e : ParseError)
  | plain (msg : String)
  | fuel
deriving DecidableEq

/-- Rendering of a returned error: `ParseError.Error` for parse errors, the
bare message for plain errors. -/
def GoError.render : GoError → String
  | .parseErr e => e.Error
  | .plain msg => msg
  | .fuel => "out of fuel"

/-- `scan` of the token source: pop the next token, or keep returning the
EOF token at end of input. -/
def scan : List Tok → Tok × List Tok
  | [] => (eofTok, [])
  | t :: ts => (t, ts)

/-- `scanIgnoreWhitespace` (`src/parser.go`): scan, skipping a whitespace
token (the scanner coalesces consecutive whitespace, so one skip suffices). -/
def scanIgnoreWhitespace (ts : List Tok) : Tok × List Tok :=
  match scan ts with
  | (t, ts1) => if t.kind = .WS then scan ts1 else (t, ts1)

/-- `consumeWhitespace` (`src/parser.go`): consume the next token when it is
whitespace. -/
def consumeWhitespace (ts : List Tok) : List Tok :=
  match scan ts with
  | (t, ts1) => if t.kind = .WS then ts1 else ts

/-- Modelled from the spec: the raw-character peek of the token source.  The
first raw character of the pending input is determined by the next token:
`.` for a dot, `:` for a double colon, `/` for a division sign or a pending
regex region, whitespace for a whitespace token; identifiers, literals and
keywords begin with a character that is none of the peeked-for ones, and at
end of input the scanner's sentinel rune (code 0) is returned. -/
def tokFirstChar (t : Tok) : Char :=
  match t.kind with
  | .DOT => '.'
  | .DOUBLECOLON => ':'
  | .DIV => '/'
  | .REGEX => '/'
  | .BADREGEX => '/'
  | .BADESCAPE => '/'
  | .WS => ' '
  | .EOF => Char.ofNat 0
  | .LPAREN => '('
  | .RPAREN => ')'
  | .COMMA => ','
  | .SEMICOLON => ';'
  | _ => 'a'

/-- `peekRune` (`src/parser.go`), over the token-stream model. -/
def peekRune (ts : List Tok) : Char :=
  match ts with
  | [] => Char.ofNat 0
  | t :: _ => tokFirstChar t

/-- `isWhitespace` of the out-of-scope scanner: space, tab or newline. -/
def isWhitespace (c : Char) : Bool :=
  c == ' ' || c == '\t' || c == '\n'

/-- `parseIdent` (`src/parser.go`): the next non-whitespace token must be an
identifier. -/
def parseIdent (ts : List Tok) : Except GoError (String × List Tok) :=
  match scanIgnoreWhitespace ts with
  | (t, ts1) =>
    if t.kind = .IDENT then .ok (t.lit, ts1)
    else .error (.parseErr (newParseError (tokstr t) (["identifier"]) t.pos))

/-- The loop of `parseSegmentedIdents` (`src/parser.go`): collect further
dot-separated segments after the first identifier.  A token other than a dot
ends the loop (and is not consumed); after a dot, a peeked `/` or `:` ends
the loop with the dot consumed, a peeked `.` records an empty segment, and
anything else must parse as an identifier.  (Fueled; the wrapper supplies
fuel exceeding the stream length, which the loop's per-iteration consumption
never outruns.) -/
def segIdentsLoop : Nat → List String → List Tok → Except GoError (List String × List Tok)
  | 0, _, _ => .error .fuel
  | f + 1, idents, ts =>
    match scan ts with
    | (t, ts1) =>
      if t.kind = .DOT then
        if peekRune ts1 = '/' then .ok (idents, ts1)
        else if peekRune ts1 = ':' then .ok (idents, ts1)
        else if peekRune ts1 = '.' then segIdentsLoop f (idents ++ [""]) ts1
        else
          match parseIdent ts1 with
          | .error e => .error e
          | .ok (ident, ts2) => segIdentsLoop f (idents ++ [ident]) ts2
      else .ok (idents, ts)

/-- `isIdentChar` of the out-of-scope scanner.  Modelled from the spec's
bare-identifier character rules: letters, digits and underscore continue an
identifier. -/
def isIdentChar (c : Char) : Bool :=
  c.isAlpha || c.isDigit || c == '_'

/-- `isIdentFirstChar` of the out-of-scope scanner.  Modelled from the
spec's bare-identifier character rules: a letter or underscore starts an
identifier. -/
def isIdentFirstChar (c : Char) : Bool :=
  c.isAlpha || c == '_'

/-- ASCII lower-casing of one character (`strings.ToLower` acts on ASCII
identifier text here). -/
def lowerChar (c : Char) : Char :=
  if 'A' ≤ c ∧ c ≤ 'Z' then Char.ofNat (c.toNat + 32) else c

/-- ASCII lower-casing of a string, over its characters. -/
def lowerStr (s : String) : String := String.mk (s.data.map lowerChar)

/-- `Lookup` of the out-of-scope token source.  Modelled from the spec: a
case-insensitive reserved-keyword table over the keyword kinds the grammar
references; anything else resolves to the plain-identifier kind. -/
def Lookup (ident : String) : TokKind :=
  if lowerStr ident = ("select") then .SELECT
  else if lowerStr ident = ("from") then .FROM
  else if lowerStr ident = ("where") then .WHERE
  else if lowerStr ident = ("as") then .AS
  else if lowerStr ident = ("and") then .AND
  else if lowerStr ident = ("or") then .OR
  else if lowerStr ident = ("true") then .TRUE
  else if lowerStr ident = ("false") then .FALSE
  else .IDENT

/-- `IdentNeedsQuotes` (`src/parser.go`): a keyword, or a string violating
the bare-identifier character rules (first character must start an
identifier, later characters must continue one), requires quotes. -/
def IdentNeedsQuotes (ident : String) : Bool :=
  if Lookup ident ≠ .IDENT then true
  else
    match ident.data with
    | [] => false
    | c :: cs => (!isIdentFirstChar c) || cs.any (fun d => !isIdentChar d)

/-- The `qiReplacer` of `src/parser.go`, per character: newline becomes a
backslash-n pair, and backslash and double quote are backslash-escaped. -/
def qiEscapeChar (c : Char) : List Char :=
  if c = '\n' then ['\\', 'n']
  else if c = '\\' then ['\\', '\\']
  else if c = '"' then ['\\', '"']
  else [c]

/-- `qiReplacer.Replace` (`src/parser.go`) over the characters of a string. -/
def qiReplace : List Char → List Char
  | [] => []
  | c :: cs => qiEscapeChar c ++ qiReplace cs

/-- One segment of `QuoteIdent` (`src/parser.go`): quoted when
`IdentNeedsQuotes` holds or the segment is non-final and non-empty. -/
def quoteIdentSeg (isLast : Bool) (segment : String) : String :=
  let needQuote := IdentNeedsQuotes segment || (!isLast && segment != "")
  (if needQuote then "\"" else "") ++ String.mk (qiReplace segment.data)
    ++ (if needQuote then "\"" else "")

/-- `QuoteIdent` (`src/parser.go`): joins the segments with dots, quoting
each segment that needs it. -/
def QuoteIdent : List String → String
  | [] => ""
  | [s] => quoteIdentSeg true s
  | s :: rest => quoteIdentSeg false s ++ "." ++ QuoteIdent rest

/-- `parseSegmentedIdents` (`src/parser.go`): a first identifier, the
segment loop, then the hard more-than-3-segments error (a message-only
`ParseError` whose position is the zero value). -/
def parseSegmentedIdents (ts : List Tok) : Except GoError (List String × List Tok) :=
  match parseIdent ts with
  | .error e => .error e
  | .ok (ident, ts1) =>
    match segIdentsLoop (ts1.length + 1) [ident] ts1 with
    | .error e => .error e
    | .ok (idents, ts2) =>
      if idents.length > 3 then
        .error (.parseErr { message := "too many segments in " ++ QuoteIdent idents })
      else .ok (idents, ts2)

/-- `DataType` of the AST model: the declared type of a variable reference. -/
inductive DataType where
  | unknown
  | float
  | integer
  | string
  | boolean
deriving DecidableEq

/-- A Go `float64` value, modelled opaquely by its decimal text: the parser
only moves such values around and never computes with them. -/
structure GoFloat where
  repr : String
deriving DecidableEq

/-- A compiled regular expression, modelled by its pattern text; pattern
compilation is out of scope for the parser's grammar and is modelled as
succeeding on scanner-accepted patterns. -/
structure GoRegex where
  pattern : String
deriving DecidableEq

/-- The `Expr` AST (data model of the spec / the nodes `src/parser.go`
constructs).  `binary` carries the operator token kind between its left and
right children; `call` names are stored lower-cased by `parseCall`. -/
inductive Expr where
  | varRef (val : String) (dtype : DataType)
  | stringLit (val : String)
  | numberLit (val : GoFloat)
  | integerLit (val : Int)
  | booleanLit (val : Bool)
  | regexLit (val : GoRegex)
  | call (name : String) (args : List Expr)
  | binary (op : TokKind) (lhs rhs : Expr)
  | paren (inner : Expr)

/-- A SELECT field: expression plus optional alias (empty string when
absent, as in Go). -/
structure Field where
  expr : Expr
  alias' : String := ""

/-- A measurement source: optional database/retention-policy qualifiers and
a name or regex selector; Go's zero values are empty strings and a nil
regex. -/
structure Measurement where
  database : String := ""
  retentionPolicy : String := ""
  name : String := ""
  regex : Option GoRegex := none
deriving DecidableEq

/-- A parsed SELECT statement (the only statement variant populated). -/
structure SelectStatement where
  fields : List Field
  sources : List Measurement
  condition : Option Expr
  isRawQuery : Bool

/-- A query: the ordered sequence of parsed statements. -/
structure Query where
  statements : List SelectStatement

/-- A caller-supplied bound-parameter value (`map[string]interface{}` in
Go): one of the four bindable runtime types, or any other runtime type,
remembered by its type name for the error message. -/
inductive GoVal where
  | float (v : GoFloat)
  | int (v : Int)
  | str (v : String)
  | bool (v : Bool)
  | other (typeName : String)
deriving DecidableEq

/-- The bound-parameter map. -/
def Params := List (String × GoVal)

/-- Map lookup for bound parameters. -/
def Params.lookup (pm : Params) (k : String) : Option GoVal :=
  match pm with
  | [] => none
  | (k', v) :: rest => if k' = k then some v else Params.lookup rest k

/-- Modelled: `strconv.ParseFloat` on a NUMBER lexeme — decimal text parses
to the (opaquely modelled) float value; anything else fails. -/
def parseFloatLit (s : String) : Option GoFloat :=
  if s ≠ "" ∧ s.data.all (fun c => c.isDigit ∨ c = '.') then some ⟨s⟩ else none

/-- Decimal digits to a natural number. -/
def digitsToNat (cs : List Char) : Nat :=
  cs.foldl (fun acc c => acc * 10 + (c.toNat - 48)) 0

/-- Modelled: `strconv.ParseInt(lit, 10, 64)` on an INTEGER lexeme — the
scanner produces unsigned digit runs, so parsing fails exactly when the
lexeme is not all digits or overflows a signed 64-bit integer. -/
def parseIntLit (s : String) : Option Int :=
  if s ≠ "" ∧ s.data.all (fun c => c.isDigit) ∧ digitsToNat s.data ≤ 9223372036854775807 then
    some (digitsToNat s.data)
  else none

/-- `parseRegex` (`src/parser.go`): peek (consuming leading whitespace); a
next character other than `/` means "no regex present".  Otherwise the token
source is switched into regex-scanning mode (`ScanRegex`), modelled here as
consuming the pending regex-mode token; bad escapes and bad patterns are
fatal, and a successfully scanned pattern compiles (compilation modelled as
succeeding, see `GoRegex`). -/
def parseRegex (ts : List Tok) : Except GoError (Option GoRegex × List Tok) :=
  let ts1 := if isWhitespace (peekRune ts) then consumeWhitespace ts else ts
  if peekRune ts1 ≠ '/' then .ok (none, ts1)
  else
    match scan ts1 with
    | (t, ts2) =>
      if t.kind = .BADESCAPE then
        .error (.parseErr { message := "bad escape: " ++ t.lit, pos := t.pos })
      else if t.kind = .BADREGEX then
        .error (.parseErr { message := "bad regex: " ++ t.lit, pos := t.pos })
      else if t.kind ≠ .REGEX then
        .error (.parseErr (newParseError (tokstr t) (["regex"]) t.pos))
      else .ok (some ⟨t.lit⟩, ts2)

/-- `parseVarRef` (`src/parser.go`): segmented identifiers joined with dots,
with an optional `::type` suffix whose type keyword must be one of
float/integer/string/boolean. -/
def parseVarRef (ts : List Tok) : Except GoError (Expr × List Tok) :=
  match parseSegmentedIdents ts with
  | .error e => .error e
  | .ok (segments, ts1) =>
    let name := String.intercalate (".") segments
    match scan ts1 with
    | (t, ts2) =>
      if t.kind = .DOUBLECOLON then
        match scan ts2 with
        | (t2, ts3) =>
          if t2.kind = .IDENT then
            if lowerStr t2.lit = ("float") then .ok (.varRef name .float, ts3)
            else if lowerStr t2.lit = ("integer") then .ok (.varRef name .integer, ts3)
            else if lowerStr t2.lit = ("string") then .ok (.varRef name .string, ts3)
            else if lowerStr t2.lit = ("boolean") then .ok (.varRef name .boolean, ts3)
            else .error (.parseErr (newParseError (tokstr t2)
              (["float", "integer", "string", "boolean", "field", "tag"]) t2.pos))
          else .error (.parseErr (newParseError (tokstr t2)
            (["float", "integer", "string", "boolean", "field", "tag"]) t2.pos))
      else .ok (.varRef name .unknown, ts1)

/-- The tree-insertion step of `ParseExpr` (`src/parser.go`, lines 583-595),
as a function of the tree below the synthetic root: descend along the right
child while it is a `BinaryExpr` whose operator's precedence is strictly
below the new operator's, and insert the new binary node where that fails,
dethroning the subtree there into the new node's left child. -/
def insertOp (t : Expr) (op : TokKind) (rhs : Expr) : Expr :=
  match t with
  | .binary bop blhs brhs =>
    if precedence bop ≥ precedence op then .binary op (.binary bop blhs brhs) rhs
    else .binary bop blhs (insertOp brhs op rhs)
  | other => .binary op other rhs

/-- Go's `strings.TrimPrefix(lit, "$")` as used on bound-parameter lexemes,
over the characters of the string. -/
def trimDollar (s : String) : String :=
  match s.data with
  | '$' :: rest => String.mk rest
  | _ => s

mutual

/-- `ParseExpr` (`src/parser.go`): one unary expression as the initial tree
(the right child of the synthetic root), then the operator loop. -/
def ParseExprF (pm : Params) : Nat → List Tok → Except GoError (Expr × List Tok)
  | 0, _ => .error .fuel
  | f + 1, ts =>
    match parseUnaryExpr pm f ts with
    | .error e => .error e
    | .ok (root, ts1) => parseExprLoop pm f root ts1
termination_by structural f => f

/-- The operator loop of `ParseExpr` (`src/parser.go`): a non-operator token
is pushed back and the tree returned; a regex-match operator requires a
regex literal right-hand side; otherwise a unary expression is parsed and
inserted by `insertOp`. -/
def parseExprLoop (pm : Params) : Nat → Expr → List Tok → Except GoError (Expr × List Tok)
  | 0, _, _ => .error .fuel
  | f + 1, root, ts =>
    match scanIgnoreWhitespace ts with
    | (op, ts1) =>
      if ¬ isOperator op.kind then .ok (root, op :: ts1)
      else if IsRegexOp op.kind then
        match parseRegex (consumeWhitespace ts1) with
        | .error e => .error e
        | .ok (none, ts2) =>
          match scanIgnoreWhitespace ts2 with
          | (t, _) => .error (.parseErr (newParseError (tokstr t) (["regex"]) t.pos))
        | .ok (some r, ts2) => parseExprLoop pm f (insertOp root op.kind (.regexLit r)) ts2
      else
        match parseUnaryExpr pm f ts1 with
        | .error e => .error e
        | .ok (rhs, ts2) => parseExprLoop pm f (insertOp root op.kind rhs) ts2
termination_by structural f root ts => f

/-- `parseUnaryExpr` (`src/parser.go`): parenthesized group, function call
or variable reference after an identifier, direct literals, or a
bound-parameter token resolved against the caller-supplied map. -/
def parseUnaryExpr (pm : Params) : Nat → List Tok → Except GoError (Expr × List Tok)
  | 0, _ => .error .fuel
  | f + 1, ts =>
    match scanIgnoreWhitespace ts with
    | (tok, ts1) =>
      if tok.kind = .LPAREN then
        match ParseExprF pm f ts1 with
        | .error e => .error e
        | .ok (e, ts2) =>
          match scanIgnoreWhitespace ts2 with
          | (t2, ts3) =>
            if t2.kind = .RPAREN then .ok (.paren e, ts3)
            else .error (.parseErr (newParseError (tokstr t2) ([")"]) t2.pos))
      else
        match tok.kind with
        | .IDENT =>
          match scan ts1 with
          | (tok0, ts2) =>
            if tok0.kind = .LPAREN then parseCall pm f tok.lit ts2
            else parseVarRef (tok :: ts1)
        | .STRING => .ok (.stringLit tok.lit, ts1)
        | .NUMBER =>
          match parseFloatLit tok.lit with
          | some v => .ok (.numberLit v, ts1)
          | none => .error (.parseErr { message := "unable to parse number", pos := tok.pos })
        | .INTEGER =>
          match parseIntLit tok.lit with
          | some v => .ok (.integerLit v, ts1)
          | none => .error (.parseErr { message := "unable to parse integer", pos := tok.pos })
        | .TRUE => .ok (.booleanLit true, ts1)
        | .FALSE => .ok (.booleanLit false, ts1)
        | .REGEX => .ok (.regexLit ⟨tok.lit⟩, ts1)
        | .BOUNDPARAM =>
          let k := trimDollar tok.lit
          if k = "" then .error (.plain ("empty bound parameter"))
          else
            match pm.lookup k with
            | none => .error (.plain ("missing parameter: " ++ k))
            | some (.float v) => .ok (.numberLit v, ts1)
            | some (.int v) => .ok (.integerLit v, ts1)
            | some (.str v) => .ok (.stringLit v, ts1)
            | some (.bool v) => .ok (.booleanLit v, ts1)
            | some (.other tn) => .error (.plain ("unable to bind parameter with type " ++ tn))
        | _ => .error (.parseErr (newParseError (tokstr tok)
            (["identifier", "string", "number", "bool"]) tok.pos))
termination_by structural f ts => f

/-- `parseCall` (`src/parser.go`), name and `(` already consumed: the name
is lower-cased; a first argument may be a regex literal, a right paren means
zero arguments, anything else is a full expression. -/
def parseCall (pm : Params) : Nat → String → List Tok → Except GoError (Expr × List Tok)
  | 0, _, _ => .error .fuel
  | f + 1, name, ts =>
    let nm := lowerStr name
    match parseRegex ts with
    | .error e => .error e
    | .ok (some r, ts1) => parseCallArgs pm f nm [.regexLit r] ts1
    | .ok (none, ts1) =>
      match scan ts1 with
      | (t, ts2) =>
        if t.kind = .RPAREN then .ok (.call nm [], ts2)
        else
          match ParseExprF pm f ts1 with
          | .error e => .error e
          | .ok (arg, ts3) => parseCallArgs pm f nm [arg] ts3
termination_by structural f name ts => f

/-- The argument loop of `parseCall` together with its final mandatory
right-paren check (`src/parser.go`): comma-separated further arguments, each
a regex literal or a full expression. -/
def parseCallArgs (pm : Params) : Nat → String → List Expr → List Tok →
    Except GoError (Expr × List Tok)
  | 0, _, _, _ => .error .fuel
  | f + 1, nm, args, ts =>
    match scanIgnoreWhitespace ts with
    | (t, ts1) =>
      if t.kind ≠ .COMMA then
        if t.kind ≠ .RPAREN then .error (.parseErr (newParseError (tokstr t) ([")"]) t.pos))
        else .ok (.call nm args, ts1)
      else
        match parseRegex ts1 with
        | .error e => .error e
        | .ok (some r, ts2) => parseCallArgs pm f nm (args ++ [.regexLit r]) ts2
        | .ok (none, ts2) =>
          match ParseExprF pm f ts2 with
          | .error e => .error e
          | .ok (arg, ts3) => parseCallArgs pm f nm (args ++ [arg]) ts3
termination_by structural f nm args ts => f

end

/-- `ParseExpr` over a token stream, with fuel amply covering the stream
(each fuel unit's recursion consumes input). -/
def ParseExpr (pm : Params) (ts : List Tok) : Except GoError (Expr × List Tok) :=
  ParseExprF pm (2 * ts.length + 2) ts

mutual

/-- Modelled from the spec: the visitor-walk scan of an expression for any
`Call` node anywhere in its subtree (used by the statement parser to compute
`IsRawQuery`). -/
def exprHasCall : Expr → Bool
  | .call _ _ => true
  | .binary _ lhs rhs => exprHasCall lhs ∨ exprHasCall rhs
  | .paren inner => exprHasCall inner
  | _ => false

/-- The walk over a call's argument list. -/
def exprsHaveCall : List Expr → Bool
  | [] => false
  | e :: es => exprHasCall e ∨ exprsHaveCall es

end

/-- The operators the `validateField` walk disallows inside a SELECT field
(the switch of `validateField.Visit`, `src/parser.go`). -/
def isInvalidFieldOp (k : TokKind) : Bool :=
  match k with
  | .EQ | .NEQ | .EQREGEX | .NEQREGEX | .LT | .LTE | .GT | .GTE | .AND | .OR => true
  | _ => false

mutual

/-- Modelled from the spec: the `validateField` visitor walk, which rejects
any nested `BinaryExpr` whose operator is a comparison or boolean-logic
operator; it reports the operator found first in pre-order. -/
def findInvalidOp : Expr → Option TokKind
  | .binary op lhs rhs =>
    if isInvalidFieldOp op then some op
    else
      match findInvalidOp lhs with
      | some bad => some bad
      | none => findInvalidOp rhs
  | .paren inner => findInvalidOp inner
  | .call _ args => findInvalidOps args
  | _ => none

/-- The invalid-operator walk over a call's argument list. -/
def findInvalidOps : List Expr → Option TokKind
  | [] => none
  | e :: es =>
    match findInvalidOp e with
    | some bad => some bad
    | none => findInvalidOps es

end

/-- The message of the invalid-operator error of `parseField`
(`src/parser.go`, line 325): the position is embedded mid-message and the
text ends with the WHERE-clause hint. -/
def invalidOpMsg (bad : TokKind) (pos : Pos) : String :=
  "invalid operator " ++ bad.str ++ " in SELECT clause at line " ++ toString (pos.line + 1)
    ++ ", char " ++ toString (pos.char + 1) ++ "; operator is intended for WHERE clause"

/-- `parseAlias` (`src/parser.go`): `AS ident`, or the empty alias with the
scanned token pushed back. -/
def parseAlias (ts : List Tok) : Except GoError (String × List Tok) :=
  match scanIgnoreWhitespace ts with
  | (t, ts1) =>
    if t.kind ≠ .AS then .ok ("", t :: ts1)
    else parseIdent ts1

/-- `parseField` (`src/parser.go`): remember the field's starting position,
parse a full expression, reject disallowed operators anywhere in it, then
parse an optional alias and consume trailing whitespace. -/
def parseField (pm : Params) (f : Nat) (ts : List Tok) : Except GoError (Field × List Tok) :=
  match scanIgnoreWhitespace ts with
  | (t0, ts0) =>
    match ParseExprF pm f (t0 :: ts0) with
    | .error e => .error e
    | .ok (e, ts1) =>
      match findInvalidOp e with
      | some bad => .error (.plain (invalidOpMsg bad t0.pos))
      | none =>
        match parseAlias ts1 with
        | .error err => .error err
        | .ok (al, ts2) => .ok ({ expr := e, alias' := al }, consumeWhitespace ts2)

/-- The loop of `parseFields` (`src/parser.go`): fields separated by commas
(the comma checked with a plain scan). -/
def parseFieldsLoop (pm : Params) : Nat → List Field → List Tok →
    Except GoError (List Field × List Tok)
  | 0, _, _ => .error .fuel
  | f + 1, acc, ts =>
    match parseField pm f ts with
    | .error e => .error e
    | .ok (fld, ts1) =>
      match scan ts1 with
      | (t, ts2) =>
        if t.kind = .COMMA then parseFieldsLoop pm f (acc ++ [fld]) ts2
        else .ok (acc ++ [fld], ts1)

/-- `parseFields` (`src/parser.go`). -/
def parseFields (pm : Params) (f : Nat) (ts : List Tok) :
    Except GoError (List Field × List Tok) :=
  parseFieldsLoop pm f [] ts

/-- `parseSource` (`src/parser.go`): a leading regex is the whole source;
otherwise segmented identifiers, mapped by count — 3 segments directly to
database/retention-policy/name, and 1 or 2 segments shifted one place when
a trailing regex follows. -/
def parseSource (ts : List Tok) : Except GoError (Measurement × List Tok) :=
  match parseRegex ts with
  | .error e => .error e
  | .ok (some r, ts1) => .ok ({ regex := some r }, ts1)
  | .ok (none, ts1) =>
    match parseSegmentedIdents ts1 with
    | .error e => .error e
    | .ok (idents, ts2) =>
      match idents with
      | [a, b, c] => .ok ({ database := a, retentionPolicy := b, name := c }, ts2)
      | _ =>
        match parseRegex ts2 with
        | .error e => .error e
        | .ok (re, ts3) =>
          match idents, re with
          | [a], none => .ok ({ name := a }, ts3)
          | [a], some r => .ok ({ retentionPolicy := a, regex := some r }, ts3)
          | [a, b], none => .ok ({ retentionPolicy := a, name := b }, ts3)
          | [a, b], some r => .ok ({ database := a, retentionPolicy := b, regex := some r }, ts3)
          | _, re2 => .ok ({ regex := re2 }, ts3)

/-- The loop of `parseSources` (`src/parser.go`): comma-separated sources. -/
def parseSourcesLoop : Nat → List Measurement → List Tok →
    Except GoError (List Measurement × List Tok)
  | 0, _, _ => .error .fuel
  | f + 1, acc, ts =>
    match parseSource ts with
    | .error e => .error e
    | .ok (s, ts1) =>
      match scanIgnoreWhitespace ts1 with
      | (t, ts2) =>
        if t.kind = .COMMA then parseSourcesLoop f (acc ++ [s]) ts2
        else .ok (acc ++ [s], t :: ts2)

/-- `parseSources` (`src/parser.go`). -/
def parseSources (f : Nat) (ts : List Tok) : Except GoError (List Measurement × List Tok) :=
  parseSourcesLoop f [] ts

/-- `parseCondition` (`src/parser.go`): no `WHERE` token means no condition
(the token is pushed back); otherwise a full expression. -/
def parseCondition (pm : Params) (f : Nat) (ts : List Tok) :
    Except GoError (Option Expr × List Tok) :=
  match scanIgnoreWhitespace ts with
  | (t, ts1) =>
    if t.kind ≠ .WHERE then .ok (none, t :: ts1)
    else
      match ParseExprF pm f ts1 with
      | .error e => .error e
      | .ok (e, ts2) => .ok (some e, ts2)

/-- Modelled from the spec: the statement-level validation hook, external to
the parser; it only decides success and never alters the statement, and is
modelled as accepting. -/
def SelectStatement.validate (_ : SelectStatement) : Option GoError := none

/-- `parseSelectStatement` (`src/parser.go`), SELECT already consumed:
fields, mandatory `FROM`, sources, optional condition; `IsRawQuery` starts
true and the walk over the field expressions clears it on any `Call` node;
finally the validation hook runs. -/
def parseSelectStatement (pm : Params) (f : Nat) (ts : List Tok) :
    Except GoError (SelectStatement × List Tok) :=
  match parseFields pm f ts with
  | .error e => .error e
  | .ok (fields, ts1) =>
    match scanIgnoreWhitespace ts1 with
    | (t, ts2) =>
      if t.kind ≠ .FROM then .error (.parseErr (newParseError (tokstr t) (["FROM"]) t.pos))
      else
        match parseSources f ts2 with
        | .error e => .error e
        | .ok (sources, ts3) =>
          match parseCondition pm f ts3 with
          | .error e => .error e
          | .ok (cond, ts4) =>
            let stmt : SelectStatement :=
              { fields := fields, sources := sources, condition := cond,
                isRawQuery := !fields.any (fun fl => exprHasCall fl.expr) }
            match stmt.validate with
            | some e => .error e
            | none => .ok (stmt, ts4)

/-- `ParseStatement` (`src/parser.go`): only `SELECT` is accepted. -/
def ParseStatement (pm : Params) (f : Nat) (ts : List Tok) :
    Except GoError (SelectStatement × List Tok) :=
  match scanIgnoreWhitespace ts with
  | (tok, ts1) =>
    match tok.kind with
    | .SELECT => parseSelectStatement pm f ts1
    | _ => .error (.parseErr (newParseError (tokstr tok) (["SELECT"]) tok.pos))

/-- The loop of `ParseQuery` (`src/parser.go`): end of input returns the
accumulated statements; a semicolon sets the semicolon-seen flag; any other
token demands that flag (else the expected-`;` error), is pushed back, and a
statement is parsed, after which the flag is reset to false. -/
def parseQueryLoop (pm : Params) : Nat → Bool → List SelectStatement → List Tok →
    Except GoError Query
  | 0, _, _, _ => .error .fuel
  | f + 1, semi, acc, ts =>
    match scanIgnoreWhitespace ts with
    | (tok, ts1) =>
      if tok.kind = .EOF then .ok ⟨acc⟩
      else if tok.kind = .SEMICOLON then parseQueryLoop pm f true acc ts1
      else if !semi then .error (.parseErr (newParseError (tokstr tok) ([";"]) tok.pos))
      else
        match ParseStatement pm f (tok :: ts1) with
        | .error e => .error e
        | .ok (s, ts2) => parseQueryLoop pm f false (acc ++ [s]) ts2

/-- `ParseQuery` over a token stream, with fuel amply covering the stream. -/
def ParseQuery (pm : Params) (ts : List Tok) : Except GoError Query :=
  parseQueryLoop pm (2 * ts.length + 2) true [] ts

/-- The escape decoding of the out-of-scope scanner's quoted-identifier
lexing: the backslash escapes the quoting utilities emit (newline,
backslash, double quote, single quote); anything else is a bad escape. -/
def unescapeChar (c : Char) : Option Char :=
  if c = 'n' then some '\n'
  else if c = '\\' then some '\\'
  else if c = '"' then some '"'
  else if c = '\'' then some '\''
  else none

/-- Modelled from the spec: the quoted-identifier lexing of the out-of-scope
scanner, after the opening double quote — characters up to the closing
double quote, decoding backslash escapes via `unescapeChar`; a missing
closing quote or an unknown escape fails. -/
def lexQuoted : List Char → Option (List Char × List Char)
  | [] => none
  | '"' :: rest => some ([], rest)
  | '\\' :: c :: rest =>
    match unescapeChar c, lexQuoted rest with
    | some ch, some (s, r) => some (ch :: s, r)
    | _, _ => none
  | c :: rest =>
    match lexQuoted rest with
    | none => none
    | some (s, r) => some (c :: s, r)

theorem lexQuoted_length : ∀ {cs s r}, lexQuoted cs = some (s, r) → r.length < cs.length := by
  intro cs
  induction cs using lexQuoted.induct with
  | case1 => intro s r h; simp only [lexQuoted] at h; cases h
  | case2 rest =>
    intro s r h
    simp only [lexQuoted] at h
    simp at h
    simp [← h.2]
  | case3 c rest ch s1 r1 hq hu ih =>
    intro s r h
    simp only [lexQuoted] at h
    rw [hu, hq] at h
    simp at h
    obtain ⟨h1, h2⟩ := h
    subst h2
    have := ih hq
    simp
    omega
  | case4 c rest hx ih =>
    intro s r h
    simp only [lexQuoted] at h
    cases h
  | case5 c rest h1 h2 hnone ih =>
    intro s r h
    simp only [lexQuoted] at h
    rw [hnone] at h
    cases h
  | case6 c rest h1 h2 s1 r1 hq ih =>
    intro s r h
    simp only [lexQuoted] at h
    rw [hq] at h
    simp at h
    obtain ⟨h1, h2⟩ := h
    subst h2
    have := ih hq
    simp
    omega

theorem dropWhile_length_le {α : Type} (p : α → Bool) :
    ∀ l : List α, (l.dropWhile p).length ≤ l.length := by
  intro l
  induction l with
  | nil => simp [List.dropWhile]
  | cons a l ih =>
    by_cases h : p a
    · simp [List.dropWhile, h]
      omega
    · simp [List.dropWhile, h]

/-- Modelled from the spec: lexing of rendered identifier text by the
out-of-scope scanner — double-quoted segments, bare identifier runs
(resolved through the keyword table, keywords carrying no literal), and
dots; any other character is an illegal token.  Only the constructs the
quoting utility can emit are modelled. -/
def lexIdents : List Char → List Tok
  | [] => []
  | '.' :: rest => { kind := .DOT } :: lexIdents rest
  | '"' :: rest =>
    match h : lexQuoted rest with
    | none => [{ kind := .ILLEGAL }]
    | some (s, rest1) => { kind := .IDENT, lit := String.mk s } :: lexIdents rest1
  | c :: rest =>
    if isIdentFirstChar c then
      let seg := String.mk (c :: rest.takeWhile isIdentChar)
      (if Lookup seg = .IDENT then { kind := .IDENT, lit := seg }
       else ({ kind := Lookup seg } : Tok)) :: lexIdents (rest.dropWhile isIdentChar)
    else [{ kind := .ILLEGAL }]
termination_by cs => cs.length
decreasing_by
  · simp
  · exact Nat.lt_trans (lexQuoted_length h) (by simp)
  · have := dropWhile_length_le isIdentChar rest
    simp
    omega

/-- An identifier token with the given literal (helper for concrete
examples). -/
def idTok (s : String) : Tok := { kind := .IDENT, lit := s }

/-- A literal-free token of the given kind (helper for concrete examples). -/
def kwTok (k : TokKind) : Tok := { kind := k }

/-- A whitespace token (helper for concrete examples). -/
def wsTok : Tok := { kind := .WS, lit := " " }

/-- C7: for every source or variable reference whose dot-segmentation
produces more than 3 segments, parsing fails with a "too many segments"
error; at most 3 segments are ever accepted (and a 4-segment source such as
`FROM a.b.c.d` fails with exactly that error). -/
theorem claim_C7_segments_max3 (ts : List Tok) :
    (∀ idents ts2, parseSegmentedIdents ts = .ok (idents, ts2) → idents.length ≤ 3) ∧
    (∀ ident ts1 idents ts2,
      parseIdent ts = .ok (ident, ts1) →
      segIdentsLoop (ts1.length + 1) [ident] ts1 = .ok (idents, ts2) →
      idents.length > 3 →
      parseSegmentedIdents ts =
        .error (.parseErr { message := "too many segments in " ++ QuoteIdent idents })) ∧
    parseSource [idTok ("a"), kwTok .DOT, idTok ("b"), kwTok .DOT, idTok ("c"), kwTok .DOT,
        idTok ("d"), kwTok .EOF] =
      .error (.parseErr { message := "too many segments in " ++ QuoteIdent ["a", "b", "c", "d"] }) := by
  refine ⟨?_, ?_, ?_⟩
  · intro idents ts2 h
    unfold parseSegmentedIdents at h
    rcases hid : parseIdent ts with e | p <;> rw [hid] at h <;> dsimp only at h
    · cases h
    · obtain ⟨ident, ts1⟩ := p
      dsimp only at h
      rcases hloop : segIdentsLoop (ts1.length + 1) [ident] ts1 with e | q <;>
        rw [hloop] at h <;> dsimp only at h
      · cases h
      · obtain ⟨idents1, ts2'⟩ := q
        dsimp only at h
        by_cases hlen : idents1.length > 3
        · simp [hlen] at h
        · simp [hlen] at h
          obtain ⟨h1, h2⟩ := h
          subst h1
          omega
  · intro ident ts1 idents ts2 h1 h2 h3
    unfold parseSegmentedIdents
    rw [h1]
    dsimp only
    rw [h2]
    dsimp only
    simp [h3]
  · rfl

/-- Witness for C7: the general bound and the overflow error instantiated on
the concrete 4-segment source `a.b.c.d`. -/
theorem claim_C7_segments_max3_witness :
    parseSegmentedIdents [idTok ("a"), kwTok .DOT, idTok ("b"), kwTok .DOT, idTok ("c"),
        kwTok .DOT, idTok ("d"), kwTok .EOF] =
      .error (.parseErr { message := "too many segments in " ++ QuoteIdent ["a", "b", "c", "d"] }) :=
  (claim_C7_segments_max3 [idTok ("a"), kwTok .DOT, idTok ("b"), kwTok .DOT, idTok ("c"),
      kwTok .DOT, idTok ("d"), kwTok .EOF]).2.1 ("a")
    [kwTok .DOT, idTok ("b"), kwTok .DOT, idTok ("c"), kwTok .DOT, idTok ("d"), kwTok .EOF]
    ["a", "b", "c", "d"] [kwTok .EOF] rfl rfl (by norm_num)

/-- C3: for every source parsed without a leading regex, the dot-separated
segments map to Measurement fields by count — 3 segments give database,
retention policy and name in order; 2 segments give retention policy and
name, or database and retention policy when a trailing regex follows; 1
segment gives the name, or the retention policy when a trailing regex
follows (empty segments, as in `FROM "db"..m`, flow through unchanged). -/
theorem claim_C3_source_segment_mapping (ts ts1 ts2 : List Tok) (idents : List String)
    (hre : parseRegex ts = .ok (none, ts1))
    (hseg : parseSegmentedIdents ts1 = .ok (idents, ts2)) :
    (∀ a b c, idents = [a, b, c] →
      parseSource ts = .ok ({ database := a, retentionPolicy := b, name := c }, ts2)) ∧
    (∀ a ts3, idents = [a] → parseRegex ts2 = .ok (none, ts3) →
      parseSource ts = .ok ({ name := a }, ts3)) ∧
    (∀ a r ts3, idents = [a] → parseRegex ts2 = .ok (some r, ts3) →
      parseSource ts = .ok ({ retentionPolicy := a, regex := some r }, ts3)) ∧
    (∀ a b ts3, idents = [a, b] → parseRegex ts2 = .ok (none, ts3) →
      parseSource ts = .ok ({ retentionPolicy := a, name := b }, ts3)) ∧
    (∀ a b r ts3, idents = [a, b] → parseRegex ts2 = .ok (some r, ts3) →
      parseSource ts = .ok ({ database := a, retentionPolicy := b, regex := some r }, ts3)) := by
  refine ⟨?_, ?_, ?_, ?_, ?_⟩
  · intro a b c hi
    subst hi
    unfold parseSource
    rw [hre]
    dsimp only
    rw [hseg]
  · intro a ts3 hi hre2
    subst hi
    unfold parseSource
    rw [hre]
    dsimp only
    rw [hseg]
    dsimp only
    rw [hre2]
  · intro a r ts3 hi hre2
    subst hi
    unfold parseSource
    rw [hre]
    dsimp only
    rw [hseg]
    dsimp only
    rw [hre2]
  · intro a b ts3 hi hre2
    subst hi
    unfold parseSource
    rw [hre]
    dsimp only
    rw [hseg]
    dsimp only
    rw [hre2]
  · intro a b r ts3 hi hre2
    subst hi
    unfold parseSource
    rw [hre]
    dsimp only
    rw [hseg]
    dsimp only
    rw [hre2]

/-- Witness for C3 at the concrete source `"db"..m`: the empty middle
segment maps to an empty retention policy. -/
theorem claim_C3_source_segment_mapping_witness :
    parseSource [idTok ("db"), kwTok .DOT, kwTok .DOT, idTok ("m"), kwTok .EOF] =
      .ok ({ database := "db", retentionPolicy := "", name := "m" }, [kwTok .EOF]) :=
  (claim_C3_source_segment_mapping
      [idTok ("db"), kwTok .DOT, kwTok .DOT, idTok ("m"), kwTok .EOF]
      [idTok ("db"), kwTok .DOT, kwTok .DOT, idTok ("m"), kwTok .EOF]
      [kwTok .EOF] ["db", "", "m"] rfl rfl).1 ("db") ("") ("m") rfl

/-- C5: a bound-parameter token met while parsing a unary expression is
resolved against the caller-supplied parameter map — an empty name is a
fatal error, a missing key is a fatal missing-parameter error, and the
supplied value's runtime type selects the literal node (float →
NumberLiteral, integer → IntegerLiteral, string → StringLiteral, boolean →
BooleanLiteral); any other value type is a fatal unable-to-bind error. -/
theorem claim_C5_bound_parameters (pm : Params) (f : Nat) (lit k : String) (pos : Pos)
    (rest : List Tok)
    (hk : trimDollar lit = k) :
    (k = "" →
      parseUnaryExpr pm (f + 1) ({ kind := .BOUNDPARAM, lit := lit, pos := pos } :: rest) =
        .error (.plain ("empty bound parameter"))) ∧
    (k ≠ "" → pm.lookup k = none →
      parseUnaryExpr pm (f + 1) ({ kind := .BOUNDPARAM, lit := lit, pos := pos } :: rest) =
        .error (.plain ("missing parameter: " ++ k))) ∧
    (∀ v, k ≠ "" → pm.lookup k = some (.float v) →
      parseUnaryExpr pm (f + 1) ({ kind := .BOUNDPARAM, lit := lit, pos := pos } :: rest) =
        .ok (.numberLit v, rest)) ∧
    (∀ v, k ≠ "" → pm.lookup k = some (.int v) →
      parseUnaryExpr pm (f + 1) ({ kind := .BOUNDPARAM, lit := lit, pos := pos } :: rest) =
        .ok (.integerLit v, rest)) ∧
    (∀ v, k ≠ "" → pm.lookup k = some (.str v) →
      parseUnaryExpr pm (f + 1) ({ kind := .BOUNDPARAM, lit := lit, pos := pos } :: rest) =
        .ok (.stringLit v, rest)) ∧
    (∀ v, k ≠ "" → pm.lookup k = some (.bool v) →
      parseUnaryExpr pm (f + 1) ({ kind := .BOUNDPARAM, lit := lit, pos := pos } :: rest) =
        .ok (.booleanLit v, rest)) ∧
    (∀ tn, k ≠ "" → pm.lookup k = some (.other tn) →
      parseUnaryExpr pm (f + 1) ({ kind := .BOUNDPARAM, lit := lit, pos := pos } :: rest) =
        .error (.plain ("unable to bind parameter with type " ++ tn))) := by
  subst hk
  have hstep : parseUnaryExpr pm (f + 1)
      ({ kind := .BOUNDPARAM, lit := lit, pos := pos } :: rest) =
      (if trimDollar lit = "" then .error (.plain ("empty bound parameter"))
       else
         match pm.lookup (trimDollar lit) with
         | none => .error (.plain ("missing parameter: " ++ trimDollar lit))
         | some (.float v) => .ok (.numberLit v, rest)
         | some (.int v) => .ok (.integerLit v, rest)
         | some (.str v) => .ok (.stringLit v, rest)
         | some (.bool v) => .ok (.booleanLit v, rest)
         | some (.other tn) => .error (.plain ("unable to bind parameter with type " ++ tn))) := rfl
  refine ⟨?_, ?_, ?_, ?_, ?_, ?_, ?_⟩
  · intro h0
    rw [hstep]
    simp [h0]
  · intro h0 hl
    rw [hstep]
    simp [h0, hl]
  · intro v h0 hl
    rw [hstep]
    simp [h0, hl]
  · intro v h0 hl
    rw [hstep]
    simp [h0, hl]
  · intro v h0 hl
    rw [hstep]
    simp [h0, hl]
  · intro v h0 hl
    rw [hstep]
    simp [h0, hl]
  · intro tn h0 hl
    rw [hstep]
    simp [h0, hl]

/-- Witness for C5: binding `$host` against the map `{host: "server01"}`
substitutes the string literal. -/
theorem claim_C5_bound_parameters_witness :
    parseUnaryExpr [("host", .str ("server01"))] 4
        ({ kind := .BOUNDPARAM, lit := "$host", pos := ⟨0, 0⟩ } :: [kwTok .EOF]) =
      .ok (.stringLit ("server01"), [kwTok .EOF]) :=
  (claim_C5_bound_parameters [("host", .str ("server01"))] 3 ("$host") ("host") ⟨0, 0⟩
      [kwTok .EOF] (by decide)).2.2.2.2.1 ("server01") (by decide) rfl

set_option maxHeartbeats 1600000 in
/-- Unfolding step: `ParseExpr` starts with one unary expression. -/
theorem ParseExprF_step (pm : Params) (f : Nat) (ts : List Tok) :
    ParseExprF pm (f + 1) ts =
      (match parseUnaryExpr pm f ts with
       | .error e => .error e
       | .ok (root, ts1) => parseExprLoop pm f root ts1) := by
  rw [ParseExprF.eq_2]

set_option maxHeartbeats 1600000 in
/-- Unfolding step: the operator loop returns the tree when the next token
is not an operator, pushing that token back. -/
theorem parseExprLoop_notOp (pm : Params) (f : Nat) (root : Expr) (op : Tok)
    (ts1 ts2 : List Tok) (hs : scanIgnoreWhitespace ts1 = (op, ts2))
    (hop : isOperator op.kind = false) :
    parseExprLoop pm (f + 1) root ts1 = .ok (root, op :: ts2) := by
  rw [parseExprLoop.eq_2]
  rw [hs]
  simp [hop]

set_option maxHeartbeats 1600000 in
/-- Unfolding step: on a non-regex operator the loop parses a unary
right-hand side and inserts it with `insertOp`. -/
theorem parseExprLoop_op (pm : Params) (f : Nat) (root : Expr) (op : Tok)
    (ts1 ts2 : List Tok) (hs : scanIgnoreWhitespace ts1 = (op, ts2))
    (hop : isOperator op.kind = true) (hnr : IsRegexOp op.kind = false) :
    parseExprLoop pm (f + 1) root ts1 =
      (match parseUnaryExpr pm f ts2 with
       | .error e => .error e
       | .ok (rhs, ts3) => parseExprLoop pm f (insertOp root op.kind rhs) ts3) := by
  rw [parseExprLoop.eq_2]
  rw [hs]
  simp [hop, hnr]

/-- C10: when the token following the first unary/primary expression is not
an operator, ParseExpr returns exactly that unary expression — the synthetic
root is never returned nor embedded, so the top-level result is a BinaryExpr
only after at least one operator token has been consumed. -/
theorem claim_C10_unary_result (pm : Params) (f : Nat) (ts ts1 : List Tok) (e : Expr)
    (h1 : parseUnaryExpr pm f ts = .ok (e, ts1))
    (h2 : isOperator (scanIgnoreWhitespace ts1).1.kind = false) :
    ParseExprF pm (f + 1) ts =
      .ok (e, (scanIgnoreWhitespace ts1).1 :: (scanIgnoreWhitespace ts1).2) := by
  cases f with
  | zero =>
    rw [parseUnaryExpr.eq_1] at h1
    cases h1
  | succ g =>
    rw [ParseExprF_step]
    rw [h1]
    dsimp only
    rcases hs : scanIgnoreWhitespace ts1 with ⟨op, ts2⟩
    rw [hs] at h2
    exact parseExprLoop_notOp pm g e op ts1 ts2 hs h2

/-- Witness for C10 on the single-identifier stream `x`. -/
theorem claim_C10_unary_result_witness :
    ParseExprF [] 4 [idTok ("x"), kwTok .EOF] = .ok (.varRef ("x") .unknown, [kwTok .EOF]) :=
  claim_C10_unary_result [] 3 [idTok ("x"), kwTok .EOF] [kwTok .EOF]
    (.varRef ("x") .unknown) rfl rfl

/-- The token stream of `SELECT a FROM b SELECT c FROM d`, in which a second
statement begins without an intervening semicolon. -/
def twoStmtToks : List Tok :=
  [{ kind := .SELECT, pos := ⟨0, 0⟩ }, wsTok, { kind := .IDENT, lit := "a", pos := ⟨0, 7⟩ },
   wsTok, { kind := .FROM, pos := ⟨0, 9⟩ }, wsTok, { kind := .IDENT, lit := "b", pos := ⟨0, 14⟩ },
   wsTok, { kind := .SELECT, pos := ⟨0, 16⟩ }, wsTok, { kind := .IDENT, lit := "c", pos := ⟨0, 23⟩ },
   wsTok, { kind := .FROM, pos := ⟨0, 25⟩ }, wsTok, { kind := .IDENT, lit := "d", pos := ⟨0, 30⟩ },
   { kind := .EOF, pos := ⟨0, 31⟩ }]

/-- C6: a statement immediately following another without an intervening
semicolon fails with a found/expected error whose expected set is exactly
";"; after a successfully parsed statement the query loop continues with the
semicolon-seen flag reset to false, and the concrete input
`SELECT a FROM b SELECT c FROM d` fails with the expected-";" error at the
second SELECT. -/
theorem claim_C6_semicolon_between_statements (pm : Params) (f : Nat)
    (acc : List SelectStatement) (ts : List Tok)
    (hne : (scanIgnoreWhitespace ts).1.kind ≠ .EOF)
    (hns : (scanIgnoreWhitespace ts).1.kind ≠ .SEMICOLON) :
    (parseQueryLoop pm (f + 1) false acc ts =
      .error (.parseErr (newParseError (tokstr (scanIgnoreWhitespace ts).1) ([";"])
        (scanIgnoreWhitespace ts).1.pos))) ∧
    (∀ s ts2,
      ParseStatement pm f ((scanIgnoreWhitespace ts).1 :: (scanIgnoreWhitespace ts).2) =
        .ok (s, ts2) →
      parseQueryLoop pm (f + 1) true acc ts = parseQueryLoop pm f false (acc ++ [s]) ts2) ∧
    ParseQuery pm twoStmtToks = .error (.parseErr (newParseError ("SELECT") ([";"]) ⟨0, 16⟩)) := by
  refine ⟨?_, ?_, ?_⟩
  · simp only [parseQueryLoop]
    rcases hs : scanIgnoreWhitespace ts with ⟨tok, ts1⟩
    rw [hs] at hne hns
    dsimp only at hne hns ⊢
    simp [hne, hns]
  · intro s ts2 hp
    simp only [parseQueryLoop]
    rcases hs : scanIgnoreWhitespace ts with ⟨tok, ts1⟩
    rw [hs] at hne hns hp
    dsimp only at hne hns hp ⊢
    simp [hne, hns, hp]
  · rfl

/-- Witness for C6: the expected-";" error at a statement-starting token
with the semicolon flag unset. -/
theorem claim_C6_semicolon_between_statements_witness :
    parseQueryLoop [] 1 false [] [{ kind := .SELECT, pos := ⟨0, 16⟩ }] =
      .error (.parseErr (newParseError ("SELECT") ([";"]) ⟨0, 16⟩)) :=
  (claim_C6_semicolon_between_statements [] 0 [] [{ kind := .SELECT, pos := ⟨0, 16⟩ }]
    (by decide) (by decide)).1

/-- C2: for every successfully parsed SELECT statement, IsRawQuery is false
iff at least one field expression contains a Call node anywhere in its
subtree; the flag is fixed at construction time. -/
theorem claim_C2_isRawQuery (pm : Params) (f : Nat) (ts ts' : List Tok)
    (stmt : SelectStatement)
    (h : parseSelectStatement pm f ts = .ok (stmt, ts')) :
    stmt.isRawQuery = false ↔ stmt.fields.any (fun fl => exprHasCall fl.expr) = true := by
  unfold parseSelectStatement at h
  rcases hf : parseFields pm f ts with e | p <;> rw [hf] at h <;> dsimp only at h
  · cases h
  · obtain ⟨fields, ts1⟩ := p
    dsimp only at h
    rcases hsw : scanIgnoreWhitespace ts1 with ⟨t, ts2⟩
    rw [hsw] at h
    dsimp only at h
    by_cases hfrom : t.kind ≠ .FROM
    · rw [if_pos hfrom] at h
      cases h
    · rw [if_neg hfrom] at h
      rcases hsrc : parseSources f ts2 with e | q <;> rw [hsrc] at h <;> dsimp only at h
      · cases h
      · obtain ⟨sources, ts3⟩ := q
        dsimp only at h
        rcases hc : parseCondition pm f ts3 with e | r <;> rw [hc] at h <;> dsimp only at h
        · cases h
        · obtain ⟨cond, ts4⟩ := r
          dsimp only [SelectStatement.validate] at h
          rw [Except.ok.injEq, Prod.mk.injEq] at h
          obtain ⟨hstmt, -⟩ := h
          subst hstmt
          cases hx : fields.any (fun fl => exprHasCall fl.expr) <;> simp [hx]

set_option maxHeartbeats 1600000 in
/-- Witness for C2: `SELECT mean(value) FROM cpu` parses with IsRawQuery =
false, consistent with the call in its only field. -/
theorem claim_C2_isRawQuery_witness :
    ({ fields := [{ expr := .call ("mean") [.varRef ("value") .unknown], alias' := "" }],
       sources := [{ name := "cpu" }], condition := none,
       isRawQuery := false } : SelectStatement).isRawQuery = false ↔
      ([{ expr := .call ("mean") [.varRef ("value") .unknown],
          alias' := "" }] : List Field).any (fun fl => exprHasCall fl.expr) = true :=
  claim_C2_isRawQuery [] 20
    [idTok ("mean"), kwTok .LPAREN, idTok ("value"), kwTok .RPAREN, wsTok, kwTok .FROM, wsTok,
      idTok ("cpu"), kwTok .EOF]
    [kwTok .EOF] _ rfl

mutual

/-- The disallowed operator reported by the field-validation walk is always
one of the comparison or boolean-logic operators. -/
theorem findInvalidOp_isInvalid (e : Expr) (bad : TokKind) :
    findInvalidOp e = some bad → isInvalidFieldOp bad = true :=
  match e with
  | .binary op lhs rhs => by
    intro h
    rw [findInvalidOp] at h
    by_cases hop : isInvalidFieldOp op = true
    · rw [if_pos hop] at h
      cases h
      exact hop
    · rw [if_neg hop] at h
      rcases hl : findInvalidOp lhs with _ | b <;> rw [hl] at h
      · exact findInvalidOp_isInvalid rhs bad h
      · cases h
        exact findInvalidOp_isInvalid lhs bad hl
  | .paren inner => by
    intro h
    rw [findInvalidOp] at h
    exact findInvalidOp_isInvalid inner bad h
  | .call nm args => by
    intro h
    rw [findInvalidOp] at h
    exact findInvalidOps_isInvalid args bad h
  | .varRef v d => by intro h; simp [findInvalidOp] at h
  | .stringLit v => by intro h; simp [findInvalidOp] at h
  | .numberLit v => by intro h; simp [findInvalidOp] at h
  | .integerLit v => by intro h; simp [findInvalidOp] at h
  | .booleanLit v => by intro h; simp [findInvalidOp] at h
  | .regexLit v => by intro h; simp [findInvalidOp] at h

/-- The list form of `findInvalidOp_isInvalid`. -/
theorem findInvalidOps_isInvalid (es : List Expr) (bad : TokKind) :
    findInvalidOps es = some bad → isInvalidFieldOp bad = true :=
  match es with
  | [] => by intro h; rw [findInvalidOps] at h; cases h
  | e :: rest => by
    intro h
    rw [findInvalidOps] at h
    rcases he : findInvalidOp e with _ | b <;> rw [he] at h
    · exact findInvalidOps_isInvalid rest bad h
    · cases h
      exact findInvalidOp_isInvalid e bad he

end

/-- C4: a SELECT field whose parsed expression contains, at any depth, a
BinaryExpr with a comparison or boolean-logic operator fails with the
invalid-operator error at the field's starting position, while the same
expression parsed as a WHERE condition succeeds. -/
theorem claim_C4_select_field_operators (pm : Params) (f : Nat) (t0 : Tok) (ts ts1 : List Tok)
    (e : Expr) (bad : TokKind)
    (hws : t0.kind ≠ .WS)
    (hp : ParseExprF pm f (t0 :: ts) = .ok (e, ts1))
    (hbad : findInvalidOp e = some bad) :
    parseField pm f (t0 :: ts) = .error (.plain (invalidOpMsg bad t0.pos)) ∧
    isInvalidFieldOp bad = true ∧
    parseCondition pm f ({ kind := .WHERE } :: t0 :: ts) = .ok (some e, ts1) := by
  have hsw : scanIgnoreWhitespace (t0 :: ts) = (t0, ts) := by
    simp [scanIgnoreWhitespace, scan, hws]
  refine ⟨?_, findInvalidOp_isInvalid e bad hbad, ?_⟩
  · unfold parseField
    rw [hsw]
    dsimp only
    rw [hp]
    dsimp only
    rw [hbad]
  · unfold parseCondition
    rw [show scanIgnoreWhitespace ({ kind := .WHERE } :: t0 :: ts) =
        (({ kind := .WHERE } : Tok), t0 :: ts) from rfl]
    dsimp only
    rw [hp]
    simp

/-- Witness for C4: `value > 10` is rejected as a SELECT field but accepted
as a WHERE condition. -/
theorem claim_C4_select_field_operators_witness :
    parseField [] 10 [{ kind := .IDENT, lit := "value", pos := ⟨0, 7⟩ }, wsTok,
        { kind := .GT, pos := ⟨0, 13⟩ }, wsTok, { kind := .INTEGER, lit := "10", pos := ⟨0, 15⟩ },
        kwTok .EOF] =
      .error (.plain (invalidOpMsg .GT ⟨0, 7⟩)) ∧
    isInvalidFieldOp .GT = true ∧
    parseCondition [] 10 ({ kind := .WHERE } :: [{ kind := .IDENT, lit := "value", pos := ⟨0, 7⟩ },
        wsTok, { kind := .GT, pos := ⟨0, 13⟩ }, wsTok,
        { kind := .INTEGER, lit := "10", pos := ⟨0, 15⟩ }, kwTok .EOF]) =
      .ok (some (.binary .GT (.varRef ("value") .unknown) (.integerLit 10)), [kwTok .EOF]) :=
  claim_C4_select_field_operators [] 10 { kind := .IDENT, lit := "value", pos := ⟨0, 7⟩ }
    [wsTok, { kind := .GT, pos := ⟨0, 13⟩ }, wsTok,
      { kind := .INTEGER, lit := "10", pos := ⟨0, 15⟩ }, kwTok .EOF]
    [kwTok .EOF] (.binary .GT (.varRef ("value") .unknown) (.integerLit 10)) .GT
    (by decide) rfl rfl

/-- C8 (amended): every error represented as a ParseError renders, via its
Error method, with the appended suffix "at line L, char C", where L and C
are the zero-indexed internal position plus one. -/
theorem claim_C8_parse_error_position_suffix (e : ParseError) :
    ∃ front, e.Error =
      front ++ (" at line " ++ toString (e.pos.line + 1) ++ ", char "
        ++ toString (e.pos.char + 1)) := by
  unfold ParseError.Error
  by_cases hm : e.message ≠ ""
  · rw [if_pos hm]
    exact ⟨e.message, by simp [String.append_assoc]⟩
  · rw [if_neg hm]
    exact ⟨"found " ++ e.found ++ ", expected " ++ String.intercalate (", ") e.expected,
      by simp [String.append_assoc]⟩

/-- Counterexample to C8 as stated: `parseField` returns a plain (non
ParseError) error for an invalid operator in the SELECT clause; its rendered
message embeds the 1-indexed position mid-message and ends with the
WHERE-clause hint, not with the position suffix. -/
theorem claim_C8_counterexample :
    parseField [] 10 [{ kind := .IDENT, lit := "v", pos := ⟨0, 7⟩ },
        { kind := .GT, pos := ⟨0, 9⟩ }, { kind := .INTEGER, lit := "1", pos := ⟨0, 11⟩ },
        kwTok .EOF] =
      .error (.plain ("invalid operator > in SELECT clause at line 1, char 8; operator is intended for WHERE clause")) ∧
    (GoError.plain ("invalid operator > in SELECT clause at line 1, char 8; operator is intended for WHERE clause")).render =
      "invalid operator > in SELECT clause at line 1, char 8; operator is intended for WHERE clause" ∧
    List.isSuffixOf (" at line 1, char 8").data
      ("invalid operator > in SELECT clause at line 1, char 8; operator is intended for WHERE clause").data = false := by
  refine ⟨rfl, rfl, by decide⟩

/-- An operator token kind is distinct from the structural kinds the
expression parser tests for. -/
theorem isOp_ne (k : TokKind) (h : isOperator k = true) :
    k ≠ .WS ∧ k ≠ .LPAREN ∧ k ≠ .DOT ∧ k ≠ .DOUBLECOLON ∧ k ≠ .EOF := by
  cases k <;> revert h <;> decide

set_option maxHeartbeats 1600000 in
/-- Unfolding step: a lone identifier at the head of the stream, not
followed by an opening paren, a dot or a double colon, parses as a plain
variable reference that consumes exactly that identifier. -/
theorem parseUnaryExpr_identHead (pm : Params) (f : Nat) (a : String) (pos : Pos)
    (rest : List Tok)
    (h1 : (scan rest).1.kind ≠ .LPAREN)
    (h2 : (scan rest).1.kind ≠ .DOT)
    (h3 : (scan rest).1.kind ≠ .DOUBLECOLON) :
    parseUnaryExpr pm (f + 1) ({ kind := .IDENT, lit := a, pos := pos } :: rest) =
      .ok (.varRef a .unknown, rest) := by
  have hred : parseUnaryExpr pm (f + 1) ({ kind := .IDENT, lit := a, pos := pos } :: rest) =
      (match scan rest with
       | (tok0, ts2) =>
         if tok0.kind = .LPAREN then parseCall pm f a ts2
         else parseVarRef ({ kind := .IDENT, lit := a, pos := pos } :: rest)) := by
    rw [parseUnaryExpr.eq_2]
    rfl
  rw [hred]
  rcases hscan : scan rest with ⟨t0, ts2⟩
  rw [hscan] at h1 h2 h3
  dsimp only at h1 h2 h3 ⊢
  rw [if_neg h1]
  unfold parseVarRef
  have hseg : parseSegmentedIdents ({ kind := .IDENT, lit := a, pos := pos } :: rest) =
      .ok ([a], rest) := by
    unfold parseSegmentedIdents
    rw [show parseIdent ({ kind := .IDENT, lit := a, pos := pos } :: rest) =
        .ok (a, rest) from rfl]
    dsimp only
    rw [segIdentsLoop.eq_2]
    rw [hscan]
    dsimp only
    rw [if_neg h2]
    rfl
  rw [hseg]
  dsimp only
  rw [hscan]
  dsimp only
  rw [if_neg h3]
  rfl

set_option maxHeartbeats 1600000 in
/-- An expression of the shape `a op1 b op2 c` parses, for any operators, to
the tree selected by a single precedence comparison: equal-or-higher
precedence of the first operator groups to the left, strictly higher
precedence of the second operator nests to the right. -/
theorem ParseExprF_twoOps (pm : Params) (f : Nat) (a b c : String) (op1 op2 : TokKind)
    (h1 : isOperator op1 = true) (h2 : isOperator op2 = true)
    (hr1 : IsRegexOp op1 = false) (hr2 : IsRegexOp op2 = false) :
    ParseExprF pm (f + 5)
        [{ kind := .IDENT, lit := a }, { kind := op1 }, { kind := .IDENT, lit := b },
         { kind := op2 }, { kind := .IDENT, lit := c }, eofTok] =
      .ok ((if precedence op1 ≥ precedence op2 then
              .binary op2 (.binary op1 (.varRef a .unknown) (.varRef b .unknown))
                (.varRef c .unknown)
            else
              .binary op1 (.varRef a .unknown)
                (.binary op2 (.varRef b .unknown) (.varRef c .unknown))),
        [eofTok]) := by
  obtain ⟨hw1, hl1, hd1, hc1, he1⟩ := isOp_ne op1 h1
  obtain ⟨hw2, hl2, hd2, hc2, he2⟩ := isOp_ne op2 h2
  rw [show f + 5 = (f + 4) + 1 from rfl, ParseExprF_step]
  rw [parseUnaryExpr_identHead pm (f + 3) a ⟨0, 0⟩
    [{ kind := op1 }, { kind := .IDENT, lit := b }, { kind := op2 },
     { kind := .IDENT, lit := c }, eofTok] hl1 hd1 hc1]
  dsimp only
  rw [show f + 3 + 1 = (f + 2) + 1 + 1 from rfl]
  rw [parseExprLoop_op pm (f + 2 + 1) (.varRef a .unknown) { kind := op1 }
    [{ kind := op1 }, { kind := .IDENT, lit := b }, { kind := op2 },
     { kind := .IDENT, lit := c }, eofTok]
    [{ kind := .IDENT, lit := b }, { kind := op2 }, { kind := .IDENT, lit := c }, eofTok]
    (by simp [scanIgnoreWhitespace, scan, hw1]) h1 hr1]
  rw [show f + 2 + 1 = (f + 1) + 1 + 1 from rfl]
  rw [parseUnaryExpr_identHead pm (f + 1 + 1) b ⟨0, 0⟩
    [{ kind := op2 }, { kind := .IDENT, lit := c }, eofTok] hl2 hd2 hc2]
  dsimp only
  rw [show insertOp (.varRef a .unknown) ({ kind := op1 } : Tok).kind (.varRef b .unknown) =
      .binary op1 (.varRef a .unknown) (.varRef b .unknown) from rfl]
  rw [parseExprLoop_op pm (f + 1 + 1) (.binary op1 (.varRef a .unknown) (.varRef b .unknown))
    { kind := op2 } [{ kind := op2 }, { kind := .IDENT, lit := c }, eofTok]
    [{ kind := .IDENT, lit := c }, eofTok]
    (by simp [scanIgnoreWhitespace, scan, hw2]) h2 hr2]
  rw [show f + 1 + 1 = f + 1 + 1 from rfl]
  rw [parseUnaryExpr_identHead pm (f + 1) c ⟨0, 0⟩ [eofTok] (by decide) (by decide) (by decide)]
  dsimp only
  rw [show insertOp (.binary op1 (.varRef a .unknown) (.varRef b .unknown))
      ({ kind := op2 } : Tok).kind (.varRef c .unknown) =
      (if precedence op1 ≥ precedence op2 then
        .binary op2 (.binary op1 (.varRef a .unknown) (.varRef b .unknown)) (.varRef c .unknown)
      else
        .binary op1 (.varRef a .unknown)
          (.binary op2 (.varRef b .unknown) (.varRef c .unknown))) from rfl]
  rw [parseExprLoop_notOp pm (f + 1) _ eofTok [eofTok] [] rfl rfl]

/-- C1: parsing respects operator precedence and is left-associative among
equal-precedence operators — for `a op1 b op2 c`, the first operator's
precedence being ≥ the second's yields `(a op1 b) op2 c` (in particular
left-associativity for equal precedence, as in `a - b - c`), and otherwise
`a op1 (b op2 c)` (so `*` binds tighter than `+` in `a + b * c`); the new
operator is inserted by descending the right spine past every BinaryExpr of
precedence ≥ the new operator's. -/
theorem claim_C1_precedence_leftassoc (pm : Params) (a b c : String) (op1 op2 : TokKind)
    (h1 : isOperator op1 = true) (h2 : isOperator op2 = true)
    (hr1 : IsRegexOp op1 = false) (hr2 : IsRegexOp op2 = false) :
    ParseExpr pm [{ kind := .IDENT, lit := a }, { kind := op1 }, { kind := .IDENT, lit := b },
        { kind := op2 }, { kind := .IDENT, lit := c }, eofTok] =
      .ok ((if precedence op1 ≥ precedence op2 then
              .binary op2 (.binary op1 (.varRef a .unknown) (.varRef b .unknown))
                (.varRef c .unknown)
            else
              .binary op1 (.varRef a .unknown)
                (.binary op2 (.varRef b .unknown) (.varRef c .unknown))),
        [eofTok]) :=
  ParseExprF_twoOps pm 9 a b c op1 op2 h1 h2 hr1 hr2

/-- Witness for C1: `a + b * c` nests the multiplication on the right, and
`a - b - c` groups to the left. -/
theorem claim_C1_precedence_leftassoc_witness :
    ParseExpr [] [{ kind := .IDENT, lit := "a" }, { kind := .ADD },
        { kind := .IDENT, lit := "b" }, { kind := .MUL }, { kind := .IDENT, lit := "c" },
        eofTok] =
      .ok (.binary .ADD (.varRef ("a") .unknown)
        (.binary .MUL (.varRef ("b") .unknown) (.varRef ("c") .unknown)), [eofTok]) ∧
    ParseExpr [] [{ kind := .IDENT, lit := "a" }, { kind := .SUB },
        { kind := .IDENT, lit := "b" }, { kind := .SUB }, { kind := .IDENT, lit := "c" },
        eofTok] =
      .ok (.binary .SUB (.binary .SUB (.varRef ("a") .unknown) (.varRef ("b") .unknown))
        (.varRef ("c") .unknown), [eofTok]) := by
  constructor
  · have h := claim_C1_precedence_leftassoc [] ("a") ("b") ("c") .ADD .MUL rfl rfl rfl rfl
    simpa using h
  · have h := claim_C1_precedence_leftassoc [] ("a") ("b") ("c") .SUB .SUB rfl rfl rfl rfl
    simpa using h

theorem data_append (a b : String) : (a ++ b).data = a.data ++ b.data := rfl

theorem takeWhile_append_all {α : Type} (p : α → Bool) :
    ∀ (l1 l2 : List α), (∀ x ∈ l1, p x = true) →
      (l1 ++ l2).takeWhile p = l1 ++ l2.takeWhile p := by
  intro l1
  induction l1 with
  | nil => intro l2 h; simp
  | cons a l ih =>
    intro l2 h
    have ha : p a = true := h a (by simp)
    simp only [List.cons_append, List.takeWhile, ha]
    simp only [List.append_eq]
    rw [ih l2 (fun x hx => h x (by simp [hx]))]

theorem dropWhile_append_all {α : Type} (p : α → Bool) :
    ∀ (l1 l2 : List α), (∀ x ∈ l1, p x = true) →
      (l1 ++ l2).dropWhile p = l2.dropWhile p := by
  intro l1
  induction l1 with
  | nil => intro l2 h; simp
  | cons a l ih =>
    intro l2 h
    have ha : p a = true := h a (by simp)
    simp only [List.cons_append, List.dropWhile, ha]
    simp only [List.append_eq]
    exact ih l2 (fun x hx => h x (by simp [hx]))

theorem identFirstChar_ne (c : Char) (h : isIdentFirstChar c = true) :
    c ≠ '.' ∧ c ≠ '"' ∧ c ≠ '\\' ∧ c ≠ '\n' := by
  refine ⟨?_, ?_, ?_, ?_⟩ <;> intro hc <;> rw [hc] at h <;> exact absurd h (by decide)

theorem identChar_ne (c : Char) (h : isIdentChar c = true) :
    c ≠ '\n' ∧ c ≠ '\\' ∧ c ≠ '"' := by
  refine ⟨?_, ?_, ?_⟩ <;> intro hc <;> rw [hc] at h <;> exact absurd h (by decide)

theorem identFirstChar_isIdentChar (c : Char) (h : isIdentFirstChar c = true) :
    isIdentChar c = true := by
  simp only [isIdentFirstChar, Bool.or_eq_true] at h
  rcases h with h | h <;> simp [isIdentChar, h]

theorem qiReplace_ident (cs : List Char) (h : ∀ c ∈ cs, isIdentChar c = true) :
    qiReplace cs = cs := by
  induction cs with
  | nil => rfl
  | cons c cs ih =>
    obtain ⟨h1, h2, h3⟩ := identChar_ne c (h c (by simp))
    simp only [qiReplace, qiEscapeChar, if_neg h1, if_neg h2, if_neg h3]
    rw [ih (fun d hd => h d (by simp [hd]))]
    rfl

theorem lexQuoted_qiReplace (s rest : List Char) :
    lexQuoted (qiReplace s ++ '"' :: rest) = some (s, rest) := by
  induction s with
  | nil =>
    simp only [qiReplace, List.nil_append]
    exact lexQuoted.eq_2 rest
  | cons c cs ih =>
    by_cases h1 : c = '\n'
    · subst h1
      show lexQuoted ('\\' :: 'n' :: (qiReplace cs ++ '"' :: rest)) = some ('\n' :: cs, rest)
      rw [lexQuoted.eq_3, show unescapeChar 'n' = some '\n' from rfl, ih]
    · by_cases h2 : c = '\\'
      · subst h2
        show lexQuoted ('\\' :: '\\' :: (qiReplace cs ++ '"' :: rest)) =
          some ('\\' :: cs, rest)
        rw [lexQuoted.eq_3, show unescapeChar '\\' = some '\\' from rfl, ih]
      · by_cases h3 : c = '"'
        · subst h3
          show lexQuoted ('\\' :: '"' :: (qiReplace cs ++ '"' :: rest)) =
            some ('"' :: cs, rest)
          rw [lexQuoted.eq_3, show unescapeChar '"' = some '"' from rfl, ih]
        · have he : qiEscapeChar c = [c] := by simp [qiEscapeChar, h1, h2, h3]
          rw [show qiReplace (c :: cs) = qiEscapeChar c ++ qiReplace cs from rfl, he]
          simp only [List.append_assoc, List.cons_append, List.nil_append]
          rw [lexQuoted.eq_4 c (qiReplace cs ++ '"' :: rest) (fun hc => h3 hc)
            (fun c2 r2 hc _ => h2 hc)]
          rw [ih]

set_option maxHeartbeats 800000 in
theorem lexIdents_dot (rest : List Char) :
    lexIdents ('.' :: rest) = { kind := .DOT } :: lexIdents rest :=
  lexIdents.eq_2 rest

set_option maxHeartbeats 800000 in
theorem lexIdents_quoted (s rest rest1 : List Char)
    (hq : lexQuoted rest = some (s, rest1)) :
    lexIdents ('"' :: rest) =
      { kind := .IDENT, lit := String.mk s } :: lexIdents rest1 := by
  rw [lexIdents.eq_3]
  split
  · rename_i hnone
    rw [hq] at hnone
    cases hnone
  · rename_i s' rest1' hsome
    rw [hq] at hsome
    cases hsome
    rfl

set_option maxHeartbeats 800000 in
theorem lexIdents_bare (c : Char) (cs rest : List Char)
    (hfirst : isIdentFirstChar c = true)
    (hall : ∀ d ∈ cs, isIdentChar d = true)
    (hlook : Lookup (String.mk (c :: cs)) = .IDENT)
    (hrest : rest = [] ∨ ∃ rest2, rest = '.' :: rest2) :
    lexIdents (c :: (cs ++ rest)) =
      { kind := .IDENT, lit := String.mk (c :: cs) } :: lexIdents rest := by
  obtain ⟨hnd, hnq, -, -⟩ := identFirstChar_ne c hfirst
  have ht : (cs ++ rest).takeWhile isIdentChar = cs := by
    rw [takeWhile_append_all isIdentChar cs rest hall]
    rcases hrest with h | ⟨r2, h⟩ <;> subst h
    · simp
    · rw [show List.takeWhile isIdentChar ('.' :: r2) = [] from rfl]
      simp
  have hd : (cs ++ rest).dropWhile isIdentChar = rest := by
    rw [dropWhile_append_all isIdentChar cs rest hall]
    rcases hrest with h | ⟨r2, h⟩ <;> subst h
    · simp
    · rfl
  rw [lexIdents.eq_4 c (cs ++ rest) (fun hc => hnd hc) (fun hc => hnq hc)]
  rw [if_pos hfirst]
  dsimp only
  rw [ht, hd, if_pos hlook]

theorem identNoQuotes_spec (s : String) (h : IdentNeedsQuotes s = false) :
    Lookup s = .IDENT ∧
    (s.data = [] ∨ ∃ c cs, s.data = c :: cs ∧ isIdentFirstChar c = true ∧
      ∀ d ∈ cs, isIdentChar d = true) := by
  unfold IdentNeedsQuotes at h
  by_cases hl : Lookup s = .IDENT
  · rw [if_neg (by simp [hl])] at h
    refine ⟨hl, ?_⟩
    rcases hd : s.data with _ | ⟨c, cs⟩ <;> rw [hd] at h
    · exact Or.inl rfl
    · right
      rw [Bool.or_eq_false_iff] at h
      obtain ⟨ha, hb⟩ := h
      simp only [List.any_eq_false] at hb
      refine ⟨c, cs, rfl, by simpa using ha, fun d hd => by simpa using hb d hd⟩
  · rw [if_pos (by simp [hl])] at h
    cases h

theorem string_data_ne_nil (s : String) (h : s ≠ ("")) : s.data ≠ [] := by
  intro hd
  apply h
  obtain ⟨l⟩ := s
  cases hd
  rfl

theorem quoteIdentSeg_data_quoted (isLast : Bool) (s : String)
    (h : (IdentNeedsQuotes s || (!isLast && s != (""))) = true) :
    (quoteIdentSeg isLast s).data = '"' :: (qiReplace s.data ++ ['"']) := by
  simp only [quoteIdentSeg]
  rw [h]
  rfl

theorem quoteIdentSeg_data_bare (s : String) (h : IdentNeedsQuotes s = false) :
    (quoteIdentSeg true s).data = qiReplace s.data := by
  have hrw : quoteIdentSeg true s = ("") ++ String.mk (qiReplace s.data) ++ ("") := by
    simp only [quoteIdentSeg, h]
    rfl
  rw [hrw, data_append, data_append]
  exact List.append_nil _

theorem lexIdents_quotedSeg (s : String) (rest : List Char) :
    lexIdents ('"' :: (qiReplace s.data ++ '"' :: rest)) =
      { kind := .IDENT, lit := s } :: lexIdents rest := by
  rw [lexIdents_quoted s.data (qiReplace s.data ++ '"' :: rest) rest
    (lexQuoted_qiReplace s.data rest)]

theorem nonfinal_needQuote (s : String) (h : s ≠ ("")) :
    (IdentNeedsQuotes s || (!false && s != (""))) = true := by
  have hb : (s != ("")) = true := bne_iff_ne.mpr h
  simp [hb]

set_option maxHeartbeats 800000 in
theorem lexIdents_finalSeg (s : String) (hne : s ≠ ("")) :
    lexIdents (quoteIdentSeg true s).data = [{ kind := .IDENT, lit := s }] := by
  by_cases hq : IdentNeedsQuotes s = true
  · rw [quoteIdentSeg_data_quoted true s (by simp [hq])]
    rw [lexIdents_quotedSeg s []]
    rw [lexIdents.eq_1]
  · have hq2 : IdentNeedsQuotes s = false := by
      cases hqq : IdentNeedsQuotes s
      · rfl
      · exact absurd hqq hq
    obtain ⟨hlook, hshape⟩ := identNoQuotes_spec s hq2
    rcases hshape with hnil | ⟨c, cs, hdata, hfirst, hall⟩
    · exact absurd hnil (string_data_ne_nil s hne)
    · rw [quoteIdentSeg_data_bare s hq2]
      have hallchars : ∀ d ∈ s.data, isIdentChar d = true := by
        rw [hdata]
        intro d hd
        rcases List.mem_cons.mp hd with h | h
        · rw [h]; exact identFirstChar_isIdentChar c hfirst
        · exact hall d h
      rw [qiReplace_ident s.data hallchars, hdata]
      have hlook2 : Lookup (String.mk (c :: cs)) = .IDENT := by
        rw [← hdata]
        exact hlook
      have hb := lexIdents_bare c cs [] hfirst hall hlook2 (Or.inl rfl)
      simp only [List.append_nil] at hb
      rw [hb, lexIdents.eq_1, ← hdata]

set_option maxHeartbeats 1600000 in
/-- C9 (corrected): QuoteIdent followed by re-lexing and `parseSegmentedIdents`
round-trips a sequence of 1–3 segments whenever the first and the last
segments are non-empty (a middle segment may be empty); `QuoteIdent` quotes a
segment exactly when it is a reserved keyword, contains characters illegal in
a bare identifier, or is a non-final non-empty segment — an empty segment is
never quoted (the spec's "empty segments are quoted" does not hold), so a
trailing empty segment renders as nothing and the round-trip fails on it. -/
theorem claim_C9_quoteIdent_roundTrip (a b c : String) :
    (a ≠ ("") →
      parseSegmentedIdents (lexIdents (QuoteIdent [a]).data) = .ok ([a], [])) ∧
    (a ≠ ("") → b ≠ ("") →
      parseSegmentedIdents (lexIdents (QuoteIdent [a, b]).data) = .ok ([a, b], [])) ∧
    (a ≠ ("") → c ≠ ("") →
      parseSegmentedIdents (lexIdents (QuoteIdent [a, b, c]).data) = .ok ([a, b, c], [])) := by
  refine ⟨?_, ?_, ?_⟩
  · intro ha
    rw [show QuoteIdent [a] = quoteIdentSeg true a from rfl]
    rw [lexIdents_finalSeg a ha]
    rfl
  · intro ha hb
    have hQ : (QuoteIdent [a, b]).data
        = '"' :: (qiReplace a.data ++ '"' :: '.' :: (quoteIdentSeg true b).data) := by
      show ((quoteIdentSeg false a ++ (".")) ++ quoteIdentSeg true b).data = _
      simp only [data_append]
      rw [quoteIdentSeg_data_quoted false a (nonfinal_needQuote a ha)]
      simp
    rw [hQ, lexIdents_quotedSeg a ('.' :: (quoteIdentSeg true b).data), lexIdents_dot,
      lexIdents_finalSeg b hb]
    rfl
  · intro ha hc
    by_cases hb : b = ("")
    · subst hb
      have hQ : (QuoteIdent [a, (""), c]).data
          = '"' :: (qiReplace a.data ++ '"' :: '.' :: '.' :: (quoteIdentSeg true c).data) := by
        show ((quoteIdentSeg false a ++ (".")) ++
            ((quoteIdentSeg false ("") ++ (".")) ++ quoteIdentSeg true c)).data = _
        rw [show quoteIdentSeg false ("") = ("") from rfl]
        simp only [data_append]
        rw [quoteIdentSeg_data_quoted false a (nonfinal_needQuote a ha)]
        simp
      rw [hQ, lexIdents_quotedSeg a ('.' :: '.' :: (quoteIdentSeg true c).data),
        lexIdents_dot, lexIdents_dot, lexIdents_finalSeg c hc]
      rfl
    · have hQ : (QuoteIdent [a, b, c]).data
          = '"' :: (qiReplace a.data ++ '"' :: '.' ::
              '"' :: (qiReplace b.data ++ '"' :: '.' :: (quoteIdentSeg true c).data)) := by
        show ((quoteIdentSeg false a ++ (".")) ++
            ((quoteIdentSeg false b ++ (".")) ++ quoteIdentSeg true c)).data = _
        simp only [data_append]
        rw [quoteIdentSeg_data_quoted false a (nonfinal_needQuote a ha),
          quoteIdentSeg_data_quoted false b (nonfinal_needQuote b hb)]
        simp
      rw [hQ, lexIdents_quotedSeg a _, lexIdents_dot, lexIdents_quotedSeg b _,
        lexIdents_dot, lexIdents_finalSeg c hc]
      rfl

/-- Witness for C9: the single segment `my measurement` (needs quotes) and the
three segments `db`, empty, `select` (quoted first, bare dot for the empty
middle, quoted keyword last) each round-trip through QuoteIdent. -/
theorem claim_C9_quoteIdent_roundTrip_witness :
    (("my measurement") ≠ ("") ∧
      parseSegmentedIdents (lexIdents (QuoteIdent [("my measurement")]).data) =
        .ok ([("my measurement")], [])) ∧
    (("db") ≠ ("") ∧ ("select") ≠ ("") ∧
      parseSegmentedIdents (lexIdents (QuoteIdent [("db"), (""), ("select")]).data) =
        .ok ([("db"), (""), ("select")], [])) :=
  ⟨⟨by decide, (claim_C9_quoteIdent_roundTrip ("my measurement") ("") ("")).1 (by decide)⟩,
   ⟨by decide, by decide,
    (claim_C9_quoteIdent_roundTrip ("db") ("") ("select")).2.2 (by decide) (by decide)⟩⟩

set_option maxHeartbeats 800000 in
/-- Counterexample for C9 as stated: the spec says an empty segment is quoted,
but `QuoteIdent ["m", ""]` renders the trailing empty segment as nothing,
giving `"m".`, and re-parsing that text fails expecting an identifier after
the dot — the round-trip does not hold for every 1–3 segment sequence. -/
theorem claim_C9_counterexample :
    QuoteIdent [("m"), ("")] = ("\"m\".") ∧
    parseSegmentedIdents (lexIdents (QuoteIdent [("m"), ("")]).data) =
      .error (.parseErr (newParseError ("EOF") (["identifier"]) ⟨0, 0⟩)) := by
  constructor
  · rfl
  · rw [show (QuoteIdent [("m"), ("")]).data = '"' :: ('m' :: '"' :: '.' :: []) from rfl]
    rw [lexIdents_quoted ['m'] ('m' :: '"' :: '.' :: []) ['.'] (by rfl)]
    rw [lexIdents_dot, lexIdents.eq_1]
    rfl

end Jepl
